import Mathlib

set_option maxHeartbeats 1000000

namespace CLS

/-- Coarse lifecycle phase of a cluster (spec glossary: Pending, Progressing,
Ready, Failed, Terminating). -/
inductive Phase where
  | Pending
  | Progressing
  | Ready
  | Failed
  | Terminating
  deriving DecidableEq, Repr

/-- A typed status condition reported by a controller:
`{type, status, reason, message, last_transition_time}`. -/
structure Condition where
  type : String
  status : String
  reason : String
  message : String
  last_transition_time : String
  deriving DecidableEq, Repr

/-- A controller report: `controller_name` (unique key within a cluster's
report set), `observed_generation`, an ordered list of conditions, opaque
metadata, and an optional `last_error` message. -/
structure Report where
  controller_name : String
  observed_generation : Nat
  conditions : List Condition
  metadata : List (String × String)
  last_error : Option String
  deriving DecidableEq, Repr

/-- A report carries an error that is current for generation `g`: its
`last_error` is present and its `observed_generation` equals `g`. -/
def Report.errored (g : Nat) (r : Report) : Bool :=
  r.last_error.isSome && r.observed_generation == g

/-- Of two reports, keep the one whose controller name is lexically smaller
(left-biased on ties). -/
def pickErr (a b : Report) : Report :=
  if b.controller_name < a.controller_name then b else a

/-- Modelled from the spec: aggregation rule 2's error selection (the server's
status aggregator is not part of the example client under src/). Among the
reports that carry a current error for generation `g`, select the one whose
`controller_name` is lexically first; `none` when no report is errored. -/
def firstErrorReport (g : Nat) (rs : List Report) : Option Report :=
  match rs.filter (Report.errored g) with
  | [] => none
  | r :: rest => some (rest.foldl pickErr r)

/-- A report signals readiness: it has an `Available` condition with
status `True`. -/
def Report.ready (r : Report) : Bool :=
  r.conditions.any (fun c => c.type == "Available" && c.status == "True")

/-- Number of reports that have reconciled generation `g` (their
`observed_generation` has caught up with `g`). -/
def reconciledCount (g : Nat) (rs : List Report) : Nat :=
  rs.countP (fun r => g ≤ r.observed_generation)

/-- Modelled from the spec: the server-side Status Aggregator
`aggregate(generation, reports) → (phase, message)` (not part of the example
client under src/). Rules in precedence order: (1) no reports → Pending /
"awaiting controller reconciliation"; (2) any report with a current error →
Failed with that error, lexically-first controller wins; (3) any stale report
→ Progressing / "N of M controllers reconciled"; (4) all reports at the
current generation and Available=True → Ready; (5) otherwise Progressing. -/
def aggregate (g : Nat) (rs : List Report) : Phase × String :=
  if rs.isEmpty then
    (Phase.Pending, "awaiting controller reconciliation")
  else
    match firstErrorReport g rs with
    | some r => (Phase.Failed, r.last_error.getD "")
    | none =>
      if rs.any (fun r => r.observed_generation < g) then
        (Phase.Progressing,
          toString (reconciledCount g rs) ++ " of " ++ toString rs.length
            ++ " controllers reconciled")
      else if rs.all (fun r => (r.observed_generation == g) && r.ready) then
        (Phase.Ready, "all controllers reconciled")
      else
        (Phase.Progressing, "reconciliation in progress")

theorem foldl_pickErr_mem (rest : List Report) (r : Report) :
    rest.foldl pickErr r ∈ r :: rest := by
  induction rest generalizing r with
  | nil => simp [List.foldl]
  | cons b t ih =>
    simp only [List.foldl_cons]
    rcases List.mem_cons.mp (ih (pickErr r b)) with h | h
    · rw [h]
      by_cases hc : b.controller_name < r.controller_name
      · simp [pickErr, hc]
      · simp [pickErr, hc]
    · exact List.mem_cons_of_mem _ (List.mem_cons_of_mem _ h)

theorem foldl_pickErr_min (rest : List Report) (r : Report) :
    ∀ x ∈ r :: rest, (rest.foldl pickErr r).controller_name ≤ x.controller_name := by
  induction rest generalizing r with
  | nil =>
    intro x hx
    simp only [List.mem_singleton] at hx
    subst hx
    exact le_refl _
  | cons b t ih =>
    intro x hx
    simp only [List.foldl_cons]
    have hmin := ih (pickErr r b)
    have hpr : (pickErr r b).controller_name ≤ r.controller_name := by
      unfold pickErr
      split
      · exact le_of_lt (by assumption)
      · exact le_refl _
    have hpb : (pickErr r b).controller_name ≤ b.controller_name := by
      unfold pickErr
      split
      · exact le_refl _
      · exact not_lt.mp (by assumption)
    have hhead : (t.foldl pickErr (pickErr r b)).controller_name
        ≤ (pickErr r b).controller_name :=
      hmin _ (List.mem_cons_self _ _)
    rcases List.mem_cons.mp hx with h | h
    · subst h
      exact le_trans hhead hpr
    rcases List.mem_cons.mp h with h2 | h2
    · subst h2
      exact le_trans hhead hpb
    · exact hmin _ (List.mem_cons_of_mem _ h2)

theorem firstErrorReport_perm (g : Nat) {R1 R2 : List Report}
    (hnd : (R1.map Report.controller_name).Nodup) (hp : R1.Perm R2) :
    firstErrorReport g R1 = firstErrorReport g R2 := by
  have hpf : (R1.filter (Report.errored g)).Perm (R2.filter (Report.errored g)) :=
    hp.filter _
  have hndf : ((R1.filter (Report.errored g)).map Report.controller_name).Nodup :=
    hnd.sublist ((List.filter_sublist R1).map _)
  cases hF1 : R1.filter (Report.errored g) with
  | nil =>
    rw [hF1] at hpf
    have h2 : R2.filter (Report.errored g) = [] := hpf.symm.eq_nil
    unfold firstErrorReport
    rw [hF1, h2]
  | cons r1 rest1 =>
    cases hF2 : R2.filter (Report.errored g) with
    | nil =>
      rw [hF1, hF2] at hpf
      exact absurd hpf.eq_nil (List.cons_ne_nil _ _)
    | cons r2 rest2 =>
      rw [hF1, hF2] at hpf
      rw [hF1] at hndf
      have hm1 := foldl_pickErr_mem rest1 r1
      have hm2 := foldl_pickErr_mem rest2 r2
      have hm2' : rest2.foldl pickErr r2 ∈ r1 :: rest1 := hpf.mem_iff.mpr hm2
      have h12 : (rest1.foldl pickErr r1).controller_name
          ≤ (rest2.foldl pickErr r2).controller_name :=
        foldl_pickErr_min rest1 r1 _ hm2'
      have h21 : (rest2.foldl pickErr r2).controller_name
          ≤ (rest1.foldl pickErr r1).controller_name :=
        foldl_pickErr_min rest2 r2 _ (hpf.mem_iff.mp hm1)
      have heq : rest1.foldl pickErr r1 = rest2.foldl pickErr r2 :=
        List.inj_on_of_nodup_map hndf hm1 hm2' (le_antisymm h12 h21)
      unfold firstErrorReport
      rw [hF1, hF2]
      simp [heq]

theorem any_perm {l₁ l₂ : List Report} (p : Report → Bool) (h : l₁.Perm l₂) :
    l₁.any p = l₂.any p := by
  apply Bool.eq_iff_iff.mpr
  simp only [List.any_eq_true]
  constructor
  · rintro ⟨x, hx, hpx⟩
    exact ⟨x, h.mem_iff.mp hx, hpx⟩
  · rintro ⟨x, hx, hpx⟩
    exact ⟨x, h.mem_iff.mpr hx, hpx⟩

theorem all_perm {l₁ l₂ : List Report} (p : Report → Bool) (h : l₁.Perm l₂) :
    l₁.all p = l₂.all p := by
  apply Bool.eq_iff_iff.mpr
  simp only [List.all_eq_true]
  constructor
  · intro ha x hx
    exact ha x (h.mem_iff.mpr hx)
  · intro ha x hx
    exact ha x (h.mem_iff.mp hx)

theorem reconciledCount_perm (g : Nat) {l₁ l₂ : List Report} (h : l₁.Perm l₂) :
    reconciledCount g l₁ = reconciledCount g l₂ :=
  h.countP_eq _

/-- C1: for every generation `g` and report lists `R1`, `R2` that are
permutations of each other (with controller names forming a unique key, as
the spec requires of a report set), the status aggregator returns the same
(phase, message) pair; ties among error-carrying reports are broken by
lexical order of controller name, so the result depends only on content. -/
theorem aggregate_perm_invariant (g : Nat) (R1 R2 : List Report)
    (hnd : (R1.map Report.controller_name).Nodup) (hp : R1.Perm R2) :
    aggregate g R1 = aggregate g R2 := by
  unfold aggregate
  rw [hp.isEmpty_eq, firstErrorReport_perm g hnd hp, any_perm _ hp, all_perm _ hp,
    hp.length_eq, reconciledCount_perm g hp]

/-- Concrete report for witnesses: controller "alpha" with a current error. -/
def reportAlphaErr : Report :=
  { controller_name := "alpha", observed_generation := 1, conditions := [],
    metadata := [], last_error := some "alpha quota exceeded" }

/-- Concrete report for witnesses: controller "beta" with a current error. -/
def reportBetaErr : Report :=
  { controller_name := "beta", observed_generation := 1, conditions := [],
    metadata := [], last_error := some "beta quota exceeded" }

/-- C1 witness: two concrete two-report lists that are permutations of each
other aggregate identically (both pick the lexically-first error, "alpha"). -/
theorem aggregate_perm_invariant_witness :
    (([reportBetaErr, reportAlphaErr].map Report.controller_name).Nodup
      ∧ List.Perm [reportBetaErr, reportAlphaErr] [reportAlphaErr, reportBetaErr])
    ∧ aggregate 1 [reportBetaErr, reportAlphaErr]
        = aggregate 1 [reportAlphaErr, reportBetaErr] :=
  ⟨⟨by decide, by decide⟩,
    aggregate_perm_invariant 1 [reportBetaErr, reportAlphaErr]
      [reportAlphaErr, reportBetaErr] (by decide) (by decide)⟩

/-- Declarative desired state of a cluster: platform type plus
platform-specific config, opaque to the aggregator beyond the type. -/
structure ClusterSpec where
  platform_type : String
  platform_config : List (String × String)
  deriving DecidableEq, Repr

/-- Derived cluster status: `{phase, message, conditions[], observed_generation}`,
never directly settable by end users. -/
structure ClusterStatus where
  phase : Phase
  message : String
  conditions : List Condition
  observed_generation : Nat
  deriving DecidableEq, Repr

/-- Aggregate root: spec, generation, provenance, derived status, and the
per-controller report set (keyed by `controller_name`, latest wins). -/
structure ClusterRecord where
  id : String
  name : String
  spec : ClusterSpec
  generation : Nat
  created_by : String
  created_at : String
  status : ClusterStatus
  reports : List Report
  deriving DecidableEq, Repr

/-- Error taxonomy of the backend (spec section 7). -/
inductive ClsError where
  | notFound
  | conflict (msg : String)
  | invalid (msg : String)
  deriving DecidableEq, Repr

/-- Modelled from the spec: the derived `status.observed_generation` (the
server core is not part of the example client under src/): the lowest
generation any stored report has reconciled, capped at the cluster's current
generation; 0 when no controller has reported yet. -/
def observedGeneration (g : Nat) (rs : List Report) : Nat :=
  if rs.isEmpty then 0
  else min g (rs.foldr (fun r acc => min r.observed_generation acc) g)

/-- The status reflects the latest spec: at least one controller has reported
and every stored report has caught up with generation `g`. -/
def statusReflectsLatestSpec (g : Nat) (rs : List Report) : Prop :=
  rs ≠ [] ∧ ∀ r ∈ rs, g ≤ r.observed_generation

/-- Modelled from the spec: full status recomputation from the current report
snapshot, invoked after every spec change or report push. -/
def computeStatus (g : Nat) (rs : List Report) : ClusterStatus :=
  let pm := aggregate g rs
  { phase := pm.1
    message := pm.2
    conditions := rs.foldr (fun r acc => r.conditions ++ acc) []
    observed_generation := observedGeneration g rs }

/-- Modelled from the spec: `CreateCluster(name, spec, created_by)` initializes
generation=1 with an empty report set and a freshly aggregated status. -/
def createCluster (id nm : String) (sp : ClusterSpec) (created_by created_at : String) :
    ClusterRecord :=
  { id := id, name := nm, spec := sp, generation := 1,
    created_by := created_by, created_at := created_at,
    status := computeStatus 1 [], reports := [] }

/-- Latest-wins upsert of a report into the per-controller report set. -/
def upsertReport (rs : List Report) (rep : Report) : List Report :=
  if rs.any (fun r => r.controller_name == rep.controller_name) then
    rs.map (fun r => if r.controller_name == rep.controller_name then rep else r)
  else rs ++ [rep]

/-- Modelled from the spec: `PushControllerReport` always accepts and stores
the report (even if stale), then re-invokes the aggregator atomically. -/
def pushControllerReport (rec : ClusterRecord) (rep : Report) : ClusterRecord :=
  let rs := upsertReport rec.reports rep
  { rec with reports := rs, status := computeStatus rec.generation rs }

/-- Modelled from the spec: `UpdateSpec(cluster_id, new_spec,
expected_generation?)`; on a generation mismatch it fails with a Conflict
error carrying the current record unmodified, otherwise it replaces the spec,
increments the generation by exactly 1, and recomputes the status. -/
def updateClusterSpec (rec : ClusterRecord) (newSpec : ClusterSpec)
    (expected_generation : Option Nat) :
    Except (ClsError × ClusterRecord) ClusterRecord :=
  match expected_generation with
  | some eg =>
    if eg ≠ rec.generation then
      Except.error (ClsError.conflict "generation mismatch", rec)
    else
      let g := rec.generation + 1
      Except.ok { rec with spec := newSpec, generation := g,
                           status := computeStatus g rec.reports }
  | none =>
    let g := rec.generation + 1
    Except.ok { rec with spec := newSpec, generation := g,
                         status := computeStatus g rec.reports }

/-- Modelled from the spec: `Delete(id, force)` — with `force=false` it fails
with Conflict while the cluster is mid-reconciliation (phase Progressing);
with `force=true` it removes unconditionally regardless of phase. -/
def deleteCluster (rec : ClusterRecord) (force : Bool) : Except ClsError Unit :=
  if force then Except.ok ()
  else if rec.status.phase = Phase.Progressing then
    Except.error (ClsError.conflict "cluster is mid-reconciliation")
  else Except.ok ()

/-- The record invariant of spec section 3. -/
def ClusterRecord.invariant (rec : ClusterRecord) : Prop :=
  rec.status.observed_generation ≤ rec.generation

/-- Concrete spec for witnesses. -/
def specW : ClusterSpec :=
  { platform_type := "gcp", platform_config := [("projectID", "my-test-project")] }

/-- Concrete freshly created cluster for witnesses. -/
def clusterW : ClusterRecord :=
  createCluster "c-1" "demo" specW "user@example.com" "2026-01-01T00:00:00Z"

theorem observedGeneration_le (g : Nat) (rs : List Report) :
    observedGeneration g rs ≤ g := by
  unfold observedGeneration
  split
  · exact Nat.zero_le g
  · exact min_le_left _ _

theorem le_foldr_min (k g : Nat) (rs : List Report) :
    k ≤ rs.foldr (fun r acc => min r.observed_generation acc) g
      ↔ k ≤ g ∧ ∀ r ∈ rs, k ≤ r.observed_generation := by
  induction rs with
  | nil => simp
  | cons a t ih =>
    simp only [List.foldr_cons, le_min_iff, ih, List.mem_cons]
    constructor
    · rintro ⟨h1, h2, h3⟩
      exact ⟨h2, fun r hr => hr.elim (fun e => e ▸ h1) (h3 r)⟩
    · rintro ⟨h2, h4⟩
      exact ⟨h4 a (Or.inl rfl), h2, fun r hr => h4 r (Or.inr hr)⟩

theorem observedGeneration_eq_iff (g : Nat) (rs : List Report) (hg : 1 ≤ g) :
    observedGeneration g rs = g ↔ statusReflectsLatestSpec g rs := by
  unfold observedGeneration statusReflectsLatestSpec
  split
  case isTrue h =>
    have hnil : rs = [] := List.isEmpty_iff.mp h
    subst hnil
    constructor
    · intro h0
      omega
    · rintro ⟨hne, _⟩
      exact absurd rfl hne
  case isFalse h =>
    have hne : rs ≠ [] := by
      intro hnil
      subst hnil
      exact h rfl
    rw [min_eq_left_iff, le_foldr_min]
    constructor
    · rintro ⟨_, h2⟩
      exact ⟨hne, h2⟩
    · rintro ⟨_, h2⟩
      exact ⟨le_refl g, h2⟩

/-- C2: the invariant `status.observed_generation ≤ generation` holds after
CreateCluster, after every successful UpdateClusterSpec, and after every
PushControllerReport (DeleteCluster leaves no record behind to violate it);
and the recomputed status has `observed_generation = generation` exactly when
the status reflects the latest spec (some controller has reported and every
stored report has caught up with the current generation). -/
theorem observed_generation_invariant
    (id nm cb ca : String) (sp nsp : ClusterSpec) (rec : ClusterRecord)
    (rep : Report) (eg : Option Nat) :
    (createCluster id nm sp cb ca).invariant
    ∧ (∀ rec2, updateClusterSpec rec nsp eg = Except.ok rec2 → rec2.invariant)
    ∧ (pushControllerReport rec rep).invariant
    ∧ (∀ g rs, 1 ≤ g →
        ((computeStatus g rs).observed_generation = g
          ↔ statusReflectsLatestSpec g rs)) := by
  refine ⟨observedGeneration_le 1 [], ?_, observedGeneration_le _ _, ?_⟩
  · intro rec2 hok
    unfold updateClusterSpec at hok
    cases eg with
    | some e =>
      by_cases hc : e ≠ rec.generation
      · simp [hc] at hok
      · simp only [hc, if_false, Except.ok.injEq] at hok
        subst hok
        exact observedGeneration_le _ _
    | none =>
      simp only [Except.ok.injEq] at hok
      subst hok
      exact observedGeneration_le _ _
  · intro g rs hg
    exact observedGeneration_eq_iff g rs hg

/-- C2 witness: the invariant and the equality characterization evaluated on a
concrete record and report. -/
theorem observed_generation_invariant_witness :
    (pushControllerReport clusterW reportAlphaErr).invariant
    ∧ ((computeStatus 1 [reportAlphaErr]).observed_generation = 1
        ↔ statusReflectsLatestSpec 1 [reportAlphaErr]) :=
  ⟨(observed_generation_invariant "c-1" "demo" "u" "t" specW specW clusterW
      reportAlphaErr none).2.2.1,
   (observed_generation_invariant "c-1" "demo" "u" "t" specW specW clusterW
      reportAlphaErr none).2.2.2 1 [reportAlphaErr] (by decide)⟩

/-- C3: when `expected_generation` is given and differs from the stored
generation, UpdateClusterSpec fails with a Conflict error that carries the
stored record unmodified, and no updated record is ever produced. -/
theorem update_spec_conflict (rec : ClusterRecord) (nsp : ClusterSpec) (e : Nat)
    (hne : e ≠ rec.generation) :
    updateClusterSpec rec nsp (some e)
      = Except.error (ClsError.conflict "generation mismatch", rec)
    ∧ ∀ rec2, updateClusterSpec rec nsp (some e) ≠ Except.ok rec2 := by
  unfold updateClusterSpec
  simp [hne]

/-- C3 witness: a concrete mismatched update (expected 2, stored 1) conflicts
and returns the record unchanged. -/
theorem update_spec_conflict_witness :
    2 ≠ clusterW.generation
    ∧ updateClusterSpec clusterW specW (some 2)
        = Except.error (ClsError.conflict "generation mismatch", clusterW) :=
  ⟨by decide, (update_spec_conflict clusterW specW 2 (by decide)).1⟩

/-- C5: every freshly created cluster record has generation 1, phase Pending,
and (having no controller reports) the aggregated message
"awaiting controller reconciliation". -/
theorem create_cluster_initial (id nm cb ca : String) (sp : ClusterSpec) :
    (createCluster id nm sp cb ca).generation = 1
    ∧ (createCluster id nm sp cb ca).status.phase = Phase.Pending
    ∧ (createCluster id nm sp cb ca).status.message
        = "awaiting controller reconciliation" :=
  ⟨rfl, rfl, rfl⟩

namespace Client

/-- JSON values, as carried in request and response bodies of the client. -/
inductive JsVal where
  | str (s : String)
  | num (n : Int)
  | obj (fields : List (String × JsVal))
  | arr (elems : List JsVal)

/-- An HTTP response as seen by `CLSClient._request`: the status code, whether
the body is non-empty (`response.content`), and the parsed JSON object
(`response.json()`). -/
structure HttpResponse where
  status_code : Nat
  content : Bool
  body : List (String × JsVal)

/-- Outcome of `session.request`: either an HTTP response or a
`requests.RequestException` (network error, timeout, ...). -/
inductive HttpOutcome where
  | response (r : HttpResponse)
  | netError (msg : String)

/-- Mirror of the `CLSAPIError` exception: message, numeric status code, and
the response data dict. -/
structure APIError where
  message : String
  status_code : Nat
  response_data : List (String × JsVal)

/-- Result of `CLSClient._request`: the parsed JSON body on success, or a
raised `CLSAPIError`. -/
inductive ReqResult where
  | ok (body : List (String × JsVal))
  | apiError (e : APIError)

/-- The error kind a caller branches on: `some code` when a `CLSAPIError` with
that `status_code` was raised, `none` on success. -/
def ReqResult.errCode : ReqResult → Option Nat
  | ReqResult.ok _ => none
  | ReqResult.apiError e => some e.status_code

/-- `dict.get('error', dflt)` on a parsed JSON object, stringified as the
client's f-strings do for the string values it receives. -/
def jsonGetErr (body : List (String × JsVal)) (dflt : String) : String :=
  match body.lookup "error" with
  | some (JsVal.str s) => s
  | some _ => dflt
  | none => dflt

/-- The status-code dispatch of `CLSClient._request` (python-client.py lines
79-93): 200/201 return the parsed body; 404, 409 and any other code ≥ 400
raise `CLSAPIError` with that code; other codes pass `raise_for_status` (which
only raises for ≥ 400) and return the body. -/
def handleResponse (path : String) (resp : HttpResponse) : ReqResult :=
  if resp.status_code = 200 then ReqResult.ok resp.body
  else if resp.status_code = 201 then ReqResult.ok resp.body
  else if resp.status_code = 404 then
    ReqResult.apiError ⟨"Resource not found: " ++ path, 404, resp.body⟩
  else if resp.status_code = 409 then
    ReqResult.apiError
      ⟨"Conflict: " ++ jsonGetErr resp.body "Unknown conflict", 409, resp.body⟩
  else if resp.status_code ≥ 400 then
    let error_data := if resp.content then resp.body else []
    ReqResult.apiError
      ⟨"API Error " ++ toString resp.status_code ++ ": "
          ++ jsonGetErr error_data "Unknown error",
        resp.status_code, error_data⟩
  else ReqResult.ok resp.body

/-- `CLSClient._request` over an abstract transport outcome: a
`requests.RequestException` is caught and re-raised as `CLSAPIError` with
status code 0 and empty response data (lines 95-96); a response is dispatched
on its status code. -/
def request (path : String) (outcome : HttpOutcome) : ReqResult :=
  match outcome with
  | HttpOutcome.response r => handleResponse path r
  | HttpOutcome.netError m => ReqResult.apiError ⟨"Network error: " ++ m, 0, []⟩

/-- Query-parameter construction of `CLSClient.delete_cluster` (line 204):
`{'force': 'true'}` when `force` is set, empty otherwise. -/
def delete_cluster_params (force : Bool) : List (String × String) :=
  if force then [("force", "true")] else []

end Client

/-- A concrete Available=True condition for witnesses. -/
def conditionAvailable : Condition :=
  { type := "Available", status := "True", reason := "WorkCompleted",
    message := "ok", last_transition_time := "t1" }

/-- A report that is stale once the generation reaches 2. -/
def reportStaleW : Report :=
  { controller_name := "gcp", observed_generation := 1,
    conditions := [conditionAvailable], metadata := [], last_error := none }

/-- A cluster that is mid-reconciliation: created, spec updated to
generation 2, with a report still at generation 1. -/
def clusterProgressingW : ClusterRecord :=
  match updateClusterSpec clusterW specW none with
  | Except.ok r => pushControllerReport r reportStaleW
  | Except.error e => e.2

/-- C4: deleting without force fails with Conflict while the cluster is
mid-reconciliation (phase Progressing), deleting with force succeeds
unconditionally regardless of phase, and the client transmits the flag as
query parameter force='true', omitting it otherwise. -/
theorem delete_cluster_semantics (rec : ClusterRecord)
    (hprog : rec.status.phase = Phase.Progressing) :
    deleteCluster rec false
      = Except.error (ClsError.conflict "cluster is mid-reconciliation")
    ∧ (∀ r2 : ClusterRecord, deleteCluster r2 true = Except.ok ())
    ∧ Client.delete_cluster_params true = [("force", "true")]
    ∧ Client.delete_cluster_params false = [] := by
  refine ⟨?_, fun r2 => rfl, rfl, rfl⟩
  simp [deleteCluster, hprog]

/-- C4 witness: a concrete mid-reconciliation cluster is Conflict-protected
against non-forced deletion. -/
theorem delete_cluster_semantics_witness :
    clusterProgressingW.status.phase = Phase.Progressing
    ∧ deleteCluster clusterProgressingW false
        = Except.error (ClsError.conflict "cluster is mid-reconciliation") :=
  ⟨by decide, (delete_cluster_semantics clusterProgressingW (by decide)).1⟩

theorem handleResponse_errCode_of_ge (path : String) (resp : Client.HttpResponse)
    (h : 400 ≤ resp.status_code) :
    (Client.handleResponse path resp).errCode = some resp.status_code := by
  have h200 : resp.status_code ≠ 200 := by omega
  have h201 : resp.status_code ≠ 201 := by omega
  unfold Client.handleResponse
  by_cases h404 : resp.status_code = 404
  · simp [h200, h201, h404, Client.ReqResult.errCode]
  · by_cases h409 : resp.status_code = 409
    · simp [h200, h201, h404, h409, Client.ReqResult.errCode]
    · simp [h200, h201, h404, h409, ge_iff_le, h, Client.ReqResult.errCode]

/-- C6: a response with status 200 or 201 makes `_request` return the parsed
JSON body, and every status ≥ 400 makes it raise a `CLSAPIError` whose
`status_code` field is that numeric code, so callers can branch on the code
without parsing the message. -/
theorem request_status_mapping (path : String) (resp : Client.HttpResponse) :
    ((resp.status_code = 200 ∨ resp.status_code = 201) →
      Client.request path (Client.HttpOutcome.response resp)
        = Client.ReqResult.ok resp.body)
    ∧ (400 ≤ resp.status_code →
      (Client.request path (Client.HttpOutcome.response resp)).errCode
        = some resp.status_code) := by
  constructor
  · rintro (h | h) <;> simp [Client.request, Client.handleResponse, h]
  · intro h
    exact handleResponse_errCode_of_ge path resp h

/-- C6 witness: a concrete 500 response raises with status_code 500. -/
theorem request_status_mapping_witness :
    400 ≤ (500 : Nat)
    ∧ (Client.request "/clusters"
        (Client.HttpOutcome.response
          ⟨500, true, [("error", Client.JsVal.str "boom")]⟩)).errCode
      = some 500 :=
  ⟨by decide,
    (request_status_mapping "/clusters"
      ⟨500, true, [("error", Client.JsVal.str "boom")]⟩).2 (by decide)⟩

/-- C9: every network-level failure (`requests.RequestException`, including
timeouts) is re-raised as `CLSAPIError` with `status_code = 0` and empty
`response_data`, and since every HTTP error carries its code ≥ 400, the
sentinel 0 distinguishes transport failures from HTTP errors. -/
theorem network_error_sentinel (path m : String) (resp : Client.HttpResponse)
    (h400 : 400 ≤ resp.status_code) :
    Client.request path (Client.HttpOutcome.netError m)
      = Client.ReqResult.apiError ⟨"Network error: " ++ m, 0, []⟩
    ∧ (Client.request path (Client.HttpOutcome.netError m)).errCode = some 0
    ∧ (Client.request path (Client.HttpOutcome.response resp)).errCode ≠ some 0 := by
  refine ⟨rfl, rfl, ?_⟩
  have h2 : (Client.handleResponse path resp).errCode = some resp.status_code :=
    handleResponse_errCode_of_ge path resp h400
  show (Client.handleResponse path resp).errCode ≠ some 0
  rw [h2]
  intro hcontra
  simp only [Option.some.injEq] at hcontra
  omega

/-- C9 witness: a concrete network error yields the sentinel 0, distinct from
a concrete 404 response's code. -/
theorem network_error_sentinel_witness :
    400 ≤ (404 : Nat)
    ∧ (Client.request "/clusters" (Client.HttpOutcome.netError "timed out")).errCode
        = some 0
    ∧ (Client.request "/clusters"
        (Client.HttpOutcome.response ⟨404, true, []⟩)).errCode ≠ some 0 :=
  ⟨by decide,
    (network_error_sentinel "/clusters" "timed out" ⟨404, true, []⟩ (by decide)).2.1,
    (network_error_sentinel "/clusters" "timed out" ⟨404, true, []⟩ (by decide)).2.2⟩

namespace Client

/-- The part of a cluster record read by `wait_for_cluster_phase`:
`cluster['status']['phase']` and `cluster['status']['message']`. -/
structure WaitCluster where
  phase : String
  message : String
  deriving DecidableEq, Repr

/-- Outcome of `wait_for_cluster_phase`: the cluster returned at polling
iteration `i`; a `CLSAPIError` (message, status code, cluster) raised at
iteration `i` because the cluster reached Failed; or a `TimeoutError` raised
after `polls` polls. -/
inductive WaitResult where
  | found (i : Nat) (c : WaitCluster)
  | failedState (i : Nat) (err_message : String) (err_code : Nat) (c : WaitCluster)
  | timedOut (polls : Nat)
  deriving DecidableEq, Repr

/-- The polling loop of `wait_for_cluster_phase` (python-client.py lines
269-285) in discrete time: iteration `i` starts at elapsed time
`i * poll` because the loop sleeps `poll` seconds after every unsuccessful
poll; `get i` is the record `get_cluster` returns at iteration `i`. The
`fuel` argument only bounds the recursion; the wrapper passes enough fuel
that it never runs out before the `elapsed < timeout` test fails. -/
def waitLoop (get : Nat → WaitCluster) (target : String) (timeout poll : Nat) :
    Nat → Nat → WaitResult
  | i, 0 => WaitResult.timedOut i
  | i, fuel+1 =>
    if i * poll < timeout then
      if (get i).phase = target then WaitResult.found i (get i)
      else if (get i).phase = "Failed" ∧ target ≠ "Failed" then
        WaitResult.failedState i
          ("Cluster reached Failed state: " ++ (get i).message) 0 (get i)
      else waitLoop get target timeout poll (i+1) fuel
    else WaitResult.timedOut i

/-- `CLSClient.wait_for_cluster_phase` over an abstract `get_cluster`
trace. -/
def wait_for_cluster_phase (get : Nat → WaitCluster) (target : String)
    (timeout poll : Nat) : WaitResult :=
  waitLoop get target timeout poll 0 (timeout + 1)

/-- Neither loop-exit condition fires at cluster `c`. -/
def noExit (target : String) (c : WaitCluster) : Prop :=
  c.phase ≠ target ∧ ¬(c.phase = "Failed" ∧ target ≠ "Failed")

theorem waitLoop_found (get : Nat → WaitCluster) (target : String)
    (timeout poll : Nat) (j : Nat) (hj : j * poll < timeout)
    (hphase : (get j).phase = target) :
    ∀ fuel i, i ≤ j → j + 1 ≤ i + fuel →
      (∀ k, i ≤ k → k < j → noExit target (get k)) →
      waitLoop get target timeout poll i fuel = WaitResult.found j (get j) := by
  intro fuel
  induction fuel with
  | zero =>
    intro i hij hfuel _
    omega
  | succ n ih =>
    intro i hij hfuel hclean
    simp only [waitLoop]
    by_cases hij' : i = j
    · subst hij'
      simp [hj, hphase]
    · have hilt : i < j := lt_of_le_of_ne hij hij'
      have hit : i * poll < timeout :=
        lt_of_le_of_lt (Nat.mul_le_mul_right poll (le_of_lt hilt)) hj
      have hcl := hclean i (le_refl i) hilt
      rw [if_pos hit, if_neg hcl.1, if_neg hcl.2]
      exact ih (i+1) hilt (by omega) (fun k hk1 hk2 => hclean k (by omega) hk2)

theorem waitLoop_failedState (get : Nat → WaitCluster) (target : String)
    (timeout poll : Nat) (j : Nat) (hj : j * poll < timeout)
    (hfail : (get j).phase = "Failed") (htar : target ≠ "Failed") :
    ∀ fuel i, i ≤ j → j + 1 ≤ i + fuel →
      (∀ k, i ≤ k → k < j → noExit target (get k)) →
      waitLoop get target timeout poll i fuel
        = WaitResult.failedState j
            ("Cluster reached Failed state: " ++ (get j).message) 0 (get j) := by
  intro fuel
  induction fuel with
  | zero =>
    intro i hij hfuel _
    omega
  | succ n ih =>
    intro i hij hfuel hclean
    simp only [waitLoop]
    by_cases hij' : i = j
    · subst hij'
      have hnt : (get i).phase ≠ target := by
        rw [hfail]
        exact Ne.symm htar
      rw [if_pos hj, if_neg hnt, if_pos ⟨hfail, htar⟩]
    · have hilt : i < j := lt_of_le_of_ne hij hij'
      have hit : i * poll < timeout :=
        lt_of_le_of_lt (Nat.mul_le_mul_right poll (le_of_lt hilt)) hj
      have hcl := hclean i (le_refl i) hilt
      rw [if_pos hit, if_neg hcl.1, if_neg hcl.2]
      exact ih (i+1) hilt (by omega) (fun k hk1 hk2 => hclean k (by omega) hk2)

theorem waitLoop_timedOut (get : Nat → WaitCluster) (target : String)
    (timeout poll : Nat) (hpoll : 1 ≤ poll) :
    ∀ fuel i, timeout + 1 ≤ i + fuel →
      (∀ k, i ≤ k → k * poll < timeout →
        (get k).phase ≠ target ∧ (get k).phase ≠ "Failed") →
      ∃ n, waitLoop get target timeout poll i fuel = WaitResult.timedOut n
        ∧ i ≤ n ∧ timeout ≤ n * poll
        ∧ ∀ k, i ≤ k → k < n → k * poll < timeout := by
  intro fuel
  induction fuel with
  | zero =>
    intro i hfuel _
    have h1 : i ≤ i * poll := by
      calc i = i * 1 := (Nat.mul_one i).symm
        _ ≤ i * poll := Nat.mul_le_mul_left i hpoll
    have h2 : timeout ≤ i := by omega
    exact ⟨i, rfl, le_refl i, le_trans h2 h1,
      fun k hk1 hk2 => absurd (lt_of_le_of_lt hk1 hk2) (lt_irrefl i)⟩
  | succ n ih =>
    intro i hfuel hsafe
    simp only [waitLoop]
    by_cases hit : i * poll < timeout
    · have hcl := hsafe i (le_refl i) hit
      rw [if_pos hit, if_neg hcl.1, if_neg (fun hc => hcl.2 hc.1)]
      obtain ⟨m, hm, hm1, hm2, hm3⟩ :=
        ih (i+1) (by omega) (fun k hk => hsafe k (by omega))
      refine ⟨m, hm, by omega, hm2, ?_⟩
      intro k hk1 hk2
      by_cases hik : i = k
      · subst hik
        exact hit
      · exact hm3 k (by omega) hk2
    · rw [if_neg hit]
      exact ⟨i, rfl, le_refl i, not_lt.mp hit,
        fun k hk1 hk2 => absurd (lt_of_le_of_lt hk1 hk2) (lt_irrefl i)⟩

end Client

/-- C7: `wait_for_cluster_phase` polls `get_cluster` once per interval and
(a) returns the fetched record the first time its phase equals the target
(every earlier poll having fired no exit condition), and (b) raises
`TimeoutError` once the caller-supplied deadline elapses without the target
(or a Failed state) being observed; in both cases every poll happens strictly
before the deadline, and the timeout is raised at the first iteration whose
start time reaches it, so the method never blocks past the deadline. -/
theorem wait_for_cluster_phase_spec (get : Nat → Client.WaitCluster)
    (target : String) (timeout poll : Nat) (hpoll : 1 ≤ poll) :
    (∀ j, j * poll < timeout → (get j).phase = target →
      (∀ k, k < j → Client.noExit target (get k)) →
      Client.wait_for_cluster_phase get target timeout poll
        = Client.WaitResult.found j (get j))
    ∧ ((∀ k, k * poll < timeout →
          (get k).phase ≠ target ∧ (get k).phase ≠ "Failed") →
      ∃ n, Client.wait_for_cluster_phase get target timeout poll
          = Client.WaitResult.timedOut n
        ∧ timeout ≤ n * poll ∧ ∀ k, k < n → k * poll < timeout) := by
  constructor
  · intro j hj hphase hclean
    have h1 : j ≤ j * poll := by
      calc j = j * 1 := (Nat.mul_one j).symm
        _ ≤ j * poll := Nat.mul_le_mul_left j hpoll
    have hjt : j < timeout := lt_of_le_of_lt h1 hj
    exact Client.waitLoop_found get target timeout poll j hj hphase (timeout + 1) 0
      (Nat.zero_le j) (by omega) (fun k _ hk2 => hclean k hk2)
  · intro hsafe
    obtain ⟨n, hm, _, hm2, hm3⟩ :=
      Client.waitLoop_timedOut get target timeout poll hpoll (timeout + 1) 0
        (by omega) (fun k _ hk2 => hsafe k hk2)
    exact ⟨n, hm, hm2, fun k hk => hm3 k (Nat.zero_le k) hk⟩

/-- C7 witness: with target Ready and an immediately Ready trace, the first
poll's record is returned; the deadline and interval are concrete. -/
theorem wait_for_cluster_phase_spec_witness :
    1 ≤ 10 ∧ (0 * 10 < 300)
    ∧ Client.wait_for_cluster_phase (fun _ => ⟨"Ready", "done"⟩) "Ready" 300 10
        = Client.WaitResult.found 0 ⟨"Ready", "done"⟩ :=
  ⟨by decide, by decide,
    (wait_for_cluster_phase_spec (fun _ => ⟨"Ready", "done"⟩) "Ready" 300 10
        (by decide)).1 0 (by decide) (by decide)
      (fun k hk => absurd hk (Nat.not_lt_zero k))⟩

/-- C8: while polling for a target other than Failed, the first polled record
in phase Failed makes the method raise `CLSAPIError` immediately (message
"Cluster reached Failed state: " plus the cluster's status message, code 0)
instead of polling on until the deadline; when the target is Failed itself,
the record is returned normally. -/
theorem wait_failed_immediate (get : Nat → Client.WaitCluster) (target : String)
    (timeout poll : Nat) (hpoll : 1 ≤ poll) (j : Nat) (hj : j * poll < timeout)
    (hfail : (get j).phase = "Failed")
    (hclean : ∀ k, k < j → (get k).phase ≠ target ∧ (get k).phase ≠ "Failed") :
    (target ≠ "Failed" →
      Client.wait_for_cluster_phase get target timeout poll
        = Client.WaitResult.failedState j
            ("Cluster reached Failed state: " ++ (get j).message) 0 (get j))
    ∧ (target = "Failed" →
      Client.wait_for_cluster_phase get target timeout poll
        = Client.WaitResult.found j (get j)) := by
  have h1 : j ≤ j * poll := by
    calc j = j * 1 := (Nat.mul_one j).symm
      _ ≤ j * poll := Nat.mul_le_mul_left j hpoll
  have hjt : j < timeout := lt_of_le_of_lt h1 hj
  constructor
  · intro htar
    exact Client.waitLoop_failedState get target timeout poll j hj hfail htar
      (timeout + 1) 0 (Nat.zero_le j) (by omega)
      (fun k _ hk2 =>
        ⟨(hclean k hk2).1, fun hc => (hclean k hk2).2 hc.1⟩)
  · intro htar
    have hphase : (get j).phase = target := by rw [hfail, htar]
    exact Client.waitLoop_found get target timeout poll j hj hphase
      (timeout + 1) 0 (Nat.zero_le j) (by omega)
      (fun k _ hk2 =>
        ⟨(hclean k hk2).1, fun hc => (hclean k hk2).2 hc.1⟩)

/-- C8 witness: a trace that is Failed at the first poll raises the Failed
error immediately when waiting for Ready. -/
theorem wait_failed_immediate_witness :
    ("Ready" ≠ "Failed") ∧ (0 * 10 < 300)
    ∧ Client.wait_for_cluster_phase (fun _ => ⟨"Failed", "quota exceeded"⟩)
        "Ready" 300 10
      = Client.WaitResult.failedState 0
          ("Cluster reached Failed state: " ++ "quota exceeded") 0
          ⟨"Failed", "quota exceeded"⟩ :=
  ⟨by decide, by decide,
    (wait_failed_immediate (fun _ => ⟨"Failed", "quota exceeded"⟩) "Ready" 300 10
        (by decide) 0 (by decide) (by decide)
        (fun k hk => absurd hk (Nat.not_lt_zero k))).1 (by decide)⟩

namespace Client

/-- Python truthiness of an `Optional[Dict]`: `None` and the empty dict are
falsy, a non-empty dict is truthy. -/
def truthy (d : Option (List (String × JsVal))) : Bool :=
  match d with
  | none => false
  | some l => !l.isEmpty

/-- Python truthiness of an `Optional[str]`: `None` and the empty string are
falsy. -/
def truthyStr (s : Option String) : Bool :=
  match s with
  | none => false
  | some v => !v.isEmpty

/-- The `spec` value built by `CLSClient.create_cluster` (lines 147-155): the
explicit `spec` argument wins when given; otherwise the platform object holds
`type`, extended with the platform-specific config under the `platform_type`
key only when `platform_config` is truthy. -/
def create_cluster_spec (platform_type : String)
    (platform_config : Option (List (String × JsVal)))
    (spec : Option JsVal) : JsVal :=
  match spec with
  | some s => s
  | none =>
    let platform :=
      if truthy platform_config then
        [("type", JsVal.str platform_type),
         (platform_type, JsVal.obj (platform_config.getD []))]
      else [("type", JsVal.str platform_type)]
    JsVal.obj [("platform", JsVal.obj platform)]

/-- The request body of `CLSClient.create_cluster` (lines 157-165): `name`
and `spec` always; `target_project_id` only when truthy. -/
def create_cluster_body (nm platform_type : String)
    (platform_config : Option (List (String × JsVal)))
    (target_project_id : Option String)
    (spec : Option JsVal) : List (String × JsVal) :=
  let data := [("name", JsVal.str nm),
               ("spec", create_cluster_spec platform_type platform_config spec)]
  if truthyStr target_project_id then
    data ++ [("target_project_id", JsVal.str (target_project_id.getD ""))]
  else data

/-- The request body of `CLSClient.update_controller_status` (lines 237-248):
`controller_name`, `observed_generation`, `conditions` always; `metadata` and
`last_error` only when truthy. -/
def update_controller_status_body (controller_name : String)
    (observed_generation : Nat) (conditions : List JsVal)
    (metadata : Option (List (String × JsVal)))
    (last_error : Option (List (String × JsVal))) : List (String × JsVal) :=
  let data := [("controller_name", JsVal.str controller_name),
               ("observed_generation", JsVal.num observed_generation),
               ("conditions", JsVal.arr conditions)]
  let data2 := if truthy metadata then
      data ++ [("metadata", JsVal.obj (metadata.getD []))]
    else data
  if truthy last_error then
    data2 ++ [("last_error", JsVal.obj (last_error.getD []))]
  else data2

end Client

/-- C10: falsy optional parts are omitted from request bodies entirely: with
spec=None and a falsy platform_config, the create body's spec holds only the
platform type; with falsy metadata / last_error, the controller-status body
has only its three mandatory keys. Emptiness is decided by truthiness, so an
empty dict is omitted exactly like None. -/
theorem falsy_fields_omitted (nm pt cn : String) (og : Nat)
    (conds : List Client.JsVal)
    (pc md lerr : Option (List (String × Client.JsVal)))
    (hpc : Client.truthy pc = false) (hmd : Client.truthy md = false)
    (hlerr : Client.truthy lerr = false) :
    Client.create_cluster_body nm pt pc none none
      = [("name", Client.JsVal.str nm),
         ("spec", Client.JsVal.obj
            [("platform", Client.JsVal.obj [("type", Client.JsVal.str pt)])])]
    ∧ Client.update_controller_status_body cn og conds md lerr
      = [("controller_name", Client.JsVal.str cn),
         ("observed_generation", Client.JsVal.num og),
         ("conditions", Client.JsVal.arr conds)]
    ∧ Client.truthy (some []) = false ∧ Client.truthy none = false := by
  refine ⟨?_, ?_, rfl, rfl⟩
  · simp [Client.create_cluster_body, Client.create_cluster_spec,
      Client.truthyStr, hpc]
  · simp [Client.update_controller_status_body, hmd, hlerr]

/-- C10 witness: the empty dict (not None) is omitted, showing the check is
truthiness rather than is-None. -/
theorem falsy_fields_omitted_witness :
    Client.truthy (some []) = false
    ∧ Client.create_cluster_body "c" "gcp" (some []) none none
      = [("name", Client.JsVal.str "c"),
         ("spec", Client.JsVal.obj
            [("platform", Client.JsVal.obj [("type", Client.JsVal.str "gcp")])])] :=
  ⟨rfl,
    (falsy_fields_omitted "c" "gcp" "ctrl" 1 [] (some []) (some []) (some [])
      rfl rfl rfl).1⟩

end CLS
